import Mathlib

/-!
Verification of the client-side state-synchronization core of PromptWizard
(`src/static/app.js`): the SessionGuard (stale-session wipe of persistent
storage), the KeyStore (per-provider credential caching, masking and
debounced remote persistence) and the ImageStash (bounded ordered stash of
reference images kept in lockstep with a file-input's file list).

The JavaScript source is embedded shallowly: `localStorage` becomes a
string-keyed partial map, the DOM fields touched by the handlers become
fields of an explicit state record, `setTimeout`/`clearTimeout` debouncing
becomes a single optional pending-write slot with explicit fire times, and
`Math.random().toString(36).slice(2, 9)` id generation becomes an oracle
stream `rand : Nat → String` consumed at successive indices.
-/

namespace PromptWizard

/-! ## Persistent storage model (`localStorage`) -/

/-- Model of `localStorage`: a string-keyed, string-valued partial map. -/
def Store : Type := String → Option String

/-- Model of `localStorage.getItem(k)` (absent keys give `none`, JS `null`). -/
def getItem (k : String) (st : Store) : Option String := st k

/-- Model of `localStorage.setItem(k, v)`. -/
def setItem (k v : String) (st : Store) : Store :=
  fun q => if q = k then some v else st q

/-- Model of `localStorage.removeItem(k)`. -/
def removeItem (k : String) (st : Store) : Store :=
  fun q => if q = k then none else st q

/-- Constant `STORAGE_PROVIDER = 'prompt_alchemy_provider'` (app.js line 8). -/
def STORAGE_PROVIDER : String := "prompt_alchemy_provider"

/-- Constant `STORAGE_SESSION = 'prompt_alchemy_session'` (app.js line 9). -/
def STORAGE_SESSION : String := "prompt_alchemy_session"

/-- Key builder `getStorageKey(provider)` (app.js line 32): the per-provider credential key. -/
def getStorageKey (provider : String) : String := provider ++ "_api_key"

/-- Embedding of `clearLocalState` (app.js lines 17-22): removes the three provider
credential entries and the remembered provider selection. -/
def clearLocalState (st : Store) : Store :=
  removeItem STORAGE_PROVIDER
    (removeItem "grok_api_key"
      (removeItem "openai_api_key"
        (removeItem "gemini_api_key" st)))

/-- Embedding of `ensureFreshLocalStorage` (app.js lines 24-30): `appInstance` is the
session token supplied by the host page (`document.body.dataset.appInstance`).
A recorded session differing from it (including an absent record) triggers a
wipe followed by recording the new token; an equal record is a no-op. -/
def ensureFreshLocalStorage (appInstance : String) (st : Store) : Store :=
  let storedSession := getItem STORAGE_SESSION st
  if storedSession ≠ some appInstance then
    setItem STORAGE_SESSION appInstance (clearLocalState st)
  else
    st

/-! ## Masking -/

/-- Embedding of `maskKey` (app.js lines 34-37): `'*'.repeat(max(6, min(key.length, 32)))`. -/
def maskKey (key : String) : String :=
  String.mk (List.replicate (max 6 (min key.length 32)) '*')

/-! ## KeyStore state

The DOM fields the credential handlers touch (`provider-input`,
`api-key-visible` with its `dataset.masked` flag, the hidden
`api-key-input`), the in-memory `keyCache` object, `localStorage`, the
single debounce timer slot (`keyUpdateTimer`) and the log of `POST
/api/keys` requests actually issued. -/

/-- The single pending debounced write: the absolute time at which the
`setTimeout` callback fires and the `(provider, key)` pair captured by its
closure (app.js lines 78-83). -/
structure PendingWrite where
  fireAt : Nat
  provider : String
  key : String

/-- The KeyStore-relevant client state. `writes` records, in order, the
`(provider, api_key)` form payloads sent to `POST /api/keys`. -/
structure KS where
  providerInput : String
  apiKeyVisible : String
  masked : Bool
  apiKeyInput : String
  keyCache : String → Option String
  storage : Store
  pending : Option PendingWrite
  writes : List (String × String)

/-- JS object assignment `keyCache[p] = v`. -/
def updateCache (p v : String) (c : String → Option String) :
    String → Option String :=
  fun q => if q = p then some v else c q

/-- Embedding of `applyMaskedKey` (app.js lines 39-45): a falsy (empty) key is a no-op;
otherwise populate the in-memory cache, put the raw value in the hidden
input, show the masked projection and set `masked`. -/
def applyMaskedKey (provider key : String) (st : KS) : KS :=
  if key = "" then st
  else
    { st with
      keyCache := updateCache provider key st.keyCache,
      apiKeyInput := key,
      apiKeyVisible := maskKey key,
      masked := true }

/-- Embedding of `hydrateFromEnv` (app.js lines 47-56). `resp` is the outcome of
`fetch('/api/keys?provider=...')`: `none` covers a network error, a non-2xx
or malformed body, or a response without an `api_key` field (all reach the
`!data || !data.api_key` guard or the `.catch`); `some v` is a response
carrying `api_key = v`, where an empty `v` is also falsy and rejected by the
same guard. On a non-empty value the key is adopted (masked display,
in-memory cache) and written to the persistent cache; no remote write is
scheduled. -/
def hydrateFromEnv (provider : String) (resp : Option String) (st : KS) : KS :=
  match resp with
  | none => st
  | some v =>
    if v = "" then st
    else
      let st1 := applyMaskedKey provider v st
      { st1 with storage := setItem (getStorageKey provider) v st1.storage }

/-- Embedding of `syncProvider` (app.js lines 58-71): record the active provider (hidden
field and persistent selection entry), then either adopt the persistently
cached key for it, or clear the display and attempt environment hydration. -/
def syncProvider (provider : String) (resp : Option String) (st : KS) : KS :=
  let st1 :=
    { st with
      providerInput := provider,
      storage := setItem STORAGE_PROVIDER provider st.storage }
  let storedKey := (getItem (getStorageKey provider) st1.storage).getD ""
  if storedKey ≠ "" then
    applyMaskedKey provider storedKey st1
  else
    hydrateFromEnv provider resp
      { st1 with apiKeyVisible := "", apiKeyInput := "", masked := false }

/-- Embedding of `scheduleKeySync` (app.js lines 74-84): `clearTimeout` on the single
timer slot followed by `setTimeout(..., 400)` is, in this model, replacement
of the optional pending write by one firing 400 time units from now,
capturing `(provider, key)`. -/
def scheduleKeySync (now : Nat) (provider key : String) (st : KS) : KS :=
  { st with pending := some ⟨now + 400, provider, key⟩ }

/-- The event loop runs a due `setTimeout` callback (fire time reached)
before the next handler; the callback sends the captured pair to
`POST /api/keys` (app.js lines 78-83). -/
def firePendingIfDue (now : Nat) (st : KS) : KS :=
  match st.pending with
  | none => st
  | some pw =>
    if pw.fireAt ≤ now then
      { st with pending := none, writes := st.writes ++ [(pw.provider, pw.key)] }
    else st

/-- End of a run: enough time passes with no further events, so a still
pending timer fires. -/
def flushPending (st : KS) : KS :=
  match st.pending with
  | none => st
  | some pw =>
    { st with pending := none, writes := st.writes ++ [(pw.provider, pw.key)] }

/-- The `apiKeyVisible` focus handler (app.js lines 96-101). -/
def onDisplayFocus (st : KS) : KS :=
  if st.masked then { st with apiKeyVisible := "", masked := false } else st

/-- The `apiKeyVisible` blur handler (app.js lines 103-109). -/
def onDisplayBlur (st : KS) : KS :=
  let key := (st.keyCache st.providerInput).getD ""
  if st.apiKeyVisible = "" ∧ key ≠ "" then
    applyMaskedKey st.providerInput key st
  else st

/-- The `apiKeyVisible` input handler (app.js lines 111-124); `value` is the
text the field holds after the edit (`event.target.value`). An empty value
revokes the credential (clears hidden input, in-memory cache and persistent
entry) without touching the debounce timer; a non-empty value updates both
caches synchronously and schedules the debounced remote write. -/
def onDisplayInput (now : Nat) (value : String) (st : KS) : KS :=
  let st1 := { st with apiKeyVisible := value }
  let provider := st1.providerInput
  if value = "" then
    { st1 with
      apiKeyInput := "",
      keyCache := updateCache provider "" st1.keyCache,
      storage := removeItem (getStorageKey provider) st1.storage }
  else
    scheduleKeySync now provider value
      { st1 with
        keyCache := updateCache provider value st1.keyCache,
        apiKeyInput := value,
        storage := setItem (getStorageKey provider) value st1.storage }

/-- A timed KeyStore-relevant UI event. `selectProv` carries the outcome of
the environment fetch its `syncProvider` call may perform. -/
inductive KSEvent where
  | input (t : Nat) (value : String)
  | selectProv (t : Nat) (provider : String) (resp : Option String)
  | focus (t : Nat)
  | blur (t : Nat)

/-- Process one event at its time: a due timer fires first (the
single-threaded event loop runs the `setTimeout` callback before a handler
whose event happens after the fire time), then the handler runs. -/
def stepEvent (st : KS) (e : KSEvent) : KS :=
  match e with
  | KSEvent.input t v => onDisplayInput t v (firePendingIfDue t st)
  | KSEvent.selectProv t p resp => syncProvider p resp (firePendingIfDue t st)
  | KSEvent.focus t => onDisplayFocus (firePendingIfDue t st)
  | KSEvent.blur t => onDisplayBlur (firePendingIfDue t st)

/-- Run a time-ordered event sequence, then let any remaining timer fire. -/
def runEvents (events : List KSEvent) (st : KS) : KS :=
  flushPending (List.foldl stepEvent st events)

/-- A KeyStore state with no pending timer, no writes sent yet, empty caches
and `provider` active — the state right after page load for a fresh session
(before any hydration response has arrived). -/
def ksInit (provider : String) : KS :=
  { providerInput := provider, apiKeyVisible := "", masked := false,
    apiKeyInput := "", keyCache := fun _ => none, storage := fun _ => none,
    pending := none, writes := [] }

/-- A state like `ksInit "gemini"` but whose persistent cache holds a
credential for `"openai"` — used to exercise the cached branch of
`syncProvider` on a concrete input. -/
def ksStored : KS :=
  { ksInit "gemini" with
    storage := setItem (getStorageKey "openai") "sk-123" (fun _ => none) }

/-! ## ImageStash

`imageItems`, `rebuildInputFiles`, `addFiles` and `removeFileById`
(app.js lines 174-235). `Math.random().toString(36).slice(2, 9)` is an
oracle stream `rand : Nat → String` consumed at successive call indices, and
`URL.createObjectURL` is modelled by handing out the call index itself as
the preview handle (the browser guarantees each call a fresh blob URL). -/

/-- A candidate file: its declared media type (`file.type`) and opaque
content. -/
structure ImageFile where
  ftype : String
  payload : Nat
deriving DecidableEq

/-- JS `s.startsWith(pre)`: `pre` is a prefix of `s`, modelled on the
character list. -/
def strStartsWith (s pre : String) : Bool := pre.data.isPrefixOf s.data

/-- The acceptance guard `file.type.startsWith('image/')` (app.js line 216). -/
def isImage (f : ImageFile) : Bool := strStartsWith f.ftype "image/"

/-- One stash entry `{ id, file, url }` (app.js line 219). -/
structure ImageItem where
  id : String
  file : ImageFile
  url : Nat
deriving DecidableEq

/-- ImageStash state: the logical ordered item list, the bound file-input's
file list (reassigned by `rebuildInputFiles`), the index of the next
id/preview-handle generation, and the revoked preview handles. -/
structure StashState where
  imageItems : List ImageItem
  inputFiles : List ImageFile
  rngIdx : Nat
  revoked : List Nat
deriving DecidableEq

/-- The stash at page load: everything empty. -/
def initStash : StashState := ⟨[], [], 0, []⟩

/-- The `forEach` loop of `addFiles` (app.js lines 215-220): skip
non-images, skip everything once the stash holds 6 items, otherwise append
a fresh entry whose id is the next oracle value and whose preview handle is
the next fresh handle. Returns the new item list and generation index. -/
def addFilesGo (rand : Nat → String) :
    List ImageFile → List ImageItem → Nat → List ImageItem × Nat
  | [], items, idx => (items, idx)
  | f :: rest, items, idx =>
    if isImage f = false then addFilesGo rand rest items idx
    else if 6 ≤ items.length then addFilesGo rand rest items idx
    else addFilesGo rand rest (items ++ [⟨rand idx, f, idx⟩]) (idx + 1)

/-- Embedding of `addFiles` (app.js lines 214-224): run the loop, then
`rebuildInputFiles` (lines 176-180) reassigns the input's file list as the
in-order projection of the full item list. -/
def addFiles (rand : Nat → String) (files : List ImageFile)
    (st : StashState) : StashState :=
  let r := addFilesGo rand files st.imageItems st.rngIdx
  { st with
    imageItems := r.1,
    inputFiles := r.1.map (fun it => it.file),
    rngIdx := r.2 }

/-- Embedding of `removeFileById` (app.js lines 226-235): revoke the found target's
preview handle, drop every item with this id, then rebuild the input's file
list from the remaining items. -/
def removeFileById (id : String) (st : StashState) : StashState :=
  let revoked2 :=
    match st.imageItems.find? (fun it => it.id == id) with
    | some target => st.revoked ++ [target.url]
    | none => st.revoked
  let items2 := st.imageItems.filter (fun it => it.id != id)
  { st with
    imageItems := items2,
    inputFiles := items2.map (fun it => it.file),
    revoked := revoked2 }

/-- The stash states reachable in a session run: start empty, then any
sequence of `addFiles` batches and `removeFileById` calls. -/
inductive Reachable (rand : Nat → String) : StashState → Prop where
  | init : Reachable rand initStash
  | add (files : List ImageFile) {st : StashState} :
      Reachable rand st → Reachable rand (addFiles rand files st)
  | remove (id : String) {st : StashState} :
      Reachable rand st → Reachable rand (removeFileById id st)

/-- All item ids in the stash are pairwise distinct. -/
def idsDistinct (st : StashState) : Prop :=
  st.imageItems.Pairwise (fun a b => a.id ≠ b.id)

instance (st : StashState) : Decidable (idsDistinct st) := by
  unfold idsDistinct
  infer_instance

/-- An id oracle that never repeats: the n-th call yields n copies of 'a'. -/
def seqRand : Nat → String := fun n => String.mk (List.replicate n 'a')

/-- An id oracle that always yields the same 7-character token — a possible
(if astronomically unlikely) run of `Math.random().toString(36).slice(2, 9)`. -/
def constRand : Nat → String := fun _ => "aaaaaaa"

/-- A PNG candidate. -/
def imgA : ImageFile := ⟨"image/png", 0⟩

/-- A JPEG candidate. -/
def imgB : ImageFile := ⟨"image/jpeg", 1⟩

/-- A non-image candidate. -/
def txtC : ImageFile := ⟨"text/plain", 2⟩

/-! ## Theorems: masking and session guard -/

/-- Claim C2: for every non-empty key `k`, `maskKey k` consists solely of the
mask glyph `'*'` and has length `max 6 (min k.length 32)`; in particular when
`k.length ≥ 32` the masked length is exactly 32. -/
theorem maskKey_length_clamp (k : String) (hk : k ≠ "") :
    (∀ c ∈ (maskKey k).data, c = '*') ∧
    (maskKey k).length = max 6 (min k.length 32) ∧
    (32 ≤ k.length → (maskKey k).length = 32) := by
  refine ⟨?_, ?_, ?_⟩
  · intro c hc
    simpa using List.eq_of_mem_replicate hc
  · simp [maskKey]
  · intro h32
    simp [maskKey]
    omega

/-- Witness for C2 at the concrete key `"sk-12345"`. -/
theorem maskKey_length_clamp_witness :
    (∀ c ∈ (maskKey "sk-12345").data, c = '*') ∧
    (maskKey "sk-12345").length = max 6 (min ("sk-12345").length 32) ∧
    (32 ≤ ("sk-12345").length → (maskKey "sk-12345").length = 32) :=
  maskKey_length_clamp "sk-12345" (by decide)

/-- Claim C3: `ensureFreshLocalStorage tok` wipes all three provider
credential entries and the provider-selection entry and records `tok` when
the recorded session token is absent or differs from `tok`, and leaves the
store entirely unchanged when the recorded token equals `tok`. -/
theorem ensureFreshLocalStorage_spec (tok : String) (st : Store) :
    (getItem STORAGE_SESSION st ≠ some tok →
      getItem (getStorageKey "gemini") (ensureFreshLocalStorage tok st) = none ∧
      getItem (getStorageKey "openai") (ensureFreshLocalStorage tok st) = none ∧
      getItem (getStorageKey "grok") (ensureFreshLocalStorage tok st) = none ∧
      getItem STORAGE_PROVIDER (ensureFreshLocalStorage tok st) = none ∧
      getItem STORAGE_SESSION (ensureFreshLocalStorage tok st) = some tok) ∧
    (getItem STORAGE_SESSION st = some tok →
      ensureFreshLocalStorage tok st = st) := by
  constructor
  · intro hne
    simp only [ensureFreshLocalStorage, if_pos hne]
    refine ⟨?_, ?_, ?_, ?_, ?_⟩ <;>
      simp [getItem, setItem, removeItem, clearLocalState, getStorageKey,
        STORAGE_PROVIDER, STORAGE_SESSION]
  · intro heq
    simp [ensureFreshLocalStorage, heq]

/-- Witness for C3: empty store, token `"A"` — the mismatch branch fires. -/
theorem ensureFreshLocalStorage_spec_witness :
    getItem (getStorageKey "gemini")
        (ensureFreshLocalStorage "A" (fun _ => none)) = none ∧
    getItem STORAGE_SESSION (ensureFreshLocalStorage "A" (fun _ => none)) =
      some "A" :=
  ⟨((ensureFreshLocalStorage_spec "A" (fun _ => none)).1 (by simp [getItem])).1,
   ((ensureFreshLocalStorage_spec "A" (fun _ => none)).1 (by simp [getItem])).2.2.2.2⟩

/-! ## Helper lemmas about the KeyStore operations -/

theorem getStorageKey_ne_provider (p : String) :
    getStorageKey p ≠ STORAGE_PROVIDER := by
  intro h
  have h1 : (getStorageKey p).data.getLast? = STORAGE_PROVIDER.data.getLast? := by
    rw [h]
  have h2 : (getStorageKey p).data.getLast? = some 'y' := by
    rw [getStorageKey, String.data_append, List.getLast?_append]; rfl
  rw [h2] at h1
  exact absurd h1 (by decide)

theorem applyMaskedKey_pending (p k : String) (st : KS) :
    (applyMaskedKey p k st).pending = st.pending := by
  unfold applyMaskedKey; split <;> rfl

theorem applyMaskedKey_writes (p k : String) (st : KS) :
    (applyMaskedKey p k st).writes = st.writes := by
  unfold applyMaskedKey; split <;> rfl

theorem hydrateFromEnv_pending (p : String) (resp : Option String) (st : KS) :
    (hydrateFromEnv p resp st).pending = st.pending := by
  cases resp with
  | none => rfl
  | some v =>
    by_cases hv : v = "" <;> simp [hydrateFromEnv, hv, applyMaskedKey_pending]

theorem hydrateFromEnv_writes (p : String) (resp : Option String) (st : KS) :
    (hydrateFromEnv p resp st).writes = st.writes := by
  cases resp with
  | none => rfl
  | some v =>
    by_cases hv : v = "" <;> simp [hydrateFromEnv, hv, applyMaskedKey_writes]

theorem syncProvider_pending (p : String) (resp : Option String) (st : KS) :
    (syncProvider p resp st).pending = st.pending := by
  unfold syncProvider
  dsimp only
  split
  · rw [applyMaskedKey_pending]
  · rw [hydrateFromEnv_pending]

theorem syncProvider_writes (p : String) (resp : Option String) (st : KS) :
    (syncProvider p resp st).writes = st.writes := by
  unfold syncProvider
  dsimp only
  split
  · rw [applyMaskedKey_writes]
  · rw [hydrateFromEnv_writes]

theorem flushPending_writes (st : KS) :
    (flushPending st).writes =
      st.writes ++ (st.pending.map (fun pw => (pw.provider, pw.key))).toList := by
  cases h : st.pending <;> simp [flushPending, h]

/-! ## Theorems: KeyStore -/

/-- Claim C4: two non-empty edits to the same provider within the 400-unit
debounce delay produce exactly one outgoing backend write, and it carries
the second edit's value — the reschedule cancels the first pending timer. -/
theorem debounce_two_edits_one_write (st : KS) (t1 t2 : Nat) (v1 v2 : String)
    (hp : st.pending = none) (hw : st.writes = [])
    (h12 : t2 < t1 + 400) (hv1 : v1 ≠ "") (hv2 : v2 ≠ "") :
    (runEvents [KSEvent.input t1 v1, KSEvent.input t2 v2] st).writes =
      [(st.providerInput, v2)] := by
  have hnot : ¬ (t1 + 400 ≤ t2) := by omega
  simp [runEvents, stepEvent, onDisplayInput, scheduleKeySync, firePendingIfDue,
    flushPending, hp, hw, hv1, hv2, hnot]

/-- Witness for C4: edits `"a"` then `"b"` at times 0 and 100. -/
theorem debounce_two_edits_one_write_witness :
    (runEvents [KSEvent.input 0 "a", KSEvent.input 100 "b"]
        (ksInit "openai")).writes = [("openai", "b")] :=
  debounce_two_edits_one_write (ksInit "openai") 0 100 "a" "b" rfl rfl
    (by omega) (by decide) (by decide)

/-- Claim C5: a write scheduled for `(P, V)` still fires with exactly
`(P, V)` when the active provider is switched to a different provider `q`
before the timer fires — `syncProvider` never touches the pending timer. -/
theorem debounce_survives_provider_switch (st : KS) (t1 t2 : Nat)
    (v q : String) (resp : Option String)
    (hp : st.pending = none) (hw : st.writes = [])
    (h12 : t2 < t1 + 400) (hv : v ≠ "") (hq : q ≠ st.providerInput) :
    (runEvents [KSEvent.input t1 v, KSEvent.selectProv t2 q resp] st).writes =
      [(st.providerInput, v)] := by
  have hnot : ¬ (t1 + 400 ≤ t2) := by omega
  have p1 : (onDisplayInput t1 v st).pending =
      some ⟨t1 + 400, st.providerInput, v⟩ := by
    simp [onDisplayInput, scheduleKeySync, hv]
  have w1 : (onDisplayInput t1 v st).writes = [] := by
    simp [onDisplayInput, scheduleKeySync, hv, hw]
  have f1 : firePendingIfDue t1 st = st := by simp [firePendingIfDue, hp]
  have f2 : firePendingIfDue t2 (onDisplayInput t1 v st) =
      onDisplayInput t1 v st := by
    simp [firePendingIfDue, p1, hnot]
  simp only [runEvents, List.foldl_cons, List.foldl_nil, stepEvent, f1, f2]
  rw [flushPending_writes, syncProvider_writes, syncProvider_pending, p1, w1]
  simp

/-- Witness for C5: edit `"a"` for `"openai"` at time 0, switch to `"grok"`
at time 100; the flushed write is still `("openai", "a")`. -/
theorem debounce_survives_provider_switch_witness :
    (runEvents [KSEvent.input 0 "a", KSEvent.selectProv 100 "grok" none]
        (ksInit "openai")).writes = [("openai", "a")] :=
  debounce_survives_provider_switch (ksInit "openai") 0 100 "a" "grok" none
    rfl rfl (by omega) (by decide) (by decide)

/-- Claim C10: clearing the field (empty input) after a non-empty edit made
within the previous 400 time units clears both the in-memory cache and the
persistent entry for the active provider, but does not cancel the pending
debounced timer: the earlier `(provider, value)` pair is still sent. -/
theorem clear_input_leaves_pending_write (st : KS) (t1 t2 : Nat) (v : String)
    (hp : st.pending = none) (hw : st.writes = [])
    (h12 : t2 < t1 + 400) (hv : v ≠ "") :
    (runEvents [KSEvent.input t1 v, KSEvent.input t2 ""] st).keyCache
        st.providerInput = some "" ∧
    (runEvents [KSEvent.input t1 v, KSEvent.input t2 ""] st).storage
        (getStorageKey st.providerInput) = none ∧
    (runEvents [KSEvent.input t1 v, KSEvent.input t2 ""] st).writes =
      [(st.providerInput, v)] := by
  have hnot : ¬ (t1 + 400 ≤ t2) := by omega
  refine ⟨?_, ?_, ?_⟩ <;>
    simp [runEvents, stepEvent, onDisplayInput, scheduleKeySync,
      firePendingIfDue, flushPending, hp, hw, hv, hnot, updateCache,
      removeItem, setItem]

/-- Witness for C10: type `"a"` at time 0, clear the field at time 100. -/
theorem clear_input_leaves_pending_write_witness :
    (runEvents [KSEvent.input 0 "a", KSEvent.input 100 ""]
        (ksInit "openai")).keyCache "openai" = some "" ∧
    (runEvents [KSEvent.input 0 "a", KSEvent.input 100 ""]
        (ksInit "openai")).storage (getStorageKey "openai") = none ∧
    (runEvents [KSEvent.input 0 "a", KSEvent.input 100 ""]
        (ksInit "openai")).writes = [("openai", "a")] :=
  clear_input_leaves_pending_write (ksInit "openai") 0 100 "a" rfl rfl
    (by omega) (by decide)

/-- Claim C7: `syncProvider p` with a non-empty persistent-cache entry `v`
for `p` shows the masked projection of `v` with `masked = true` and
populates the in-memory cache; with no persistent entry and no environment
value it shows an empty, unmasked display. -/
theorem syncProvider_display_resolution (p v : String) (resp : Option String)
    (st : KS) :
    (st.storage (getStorageKey p) = some v → v ≠ "" →
      (syncProvider p resp st).apiKeyVisible = maskKey v ∧
      (syncProvider p resp st).masked = true ∧
      (syncProvider p resp st).keyCache p = some v) ∧
    (st.storage (getStorageKey p) = none → resp = none ∨ resp = some "" →
      (syncProvider p resp st).apiKeyVisible = "" ∧
      (syncProvider p resp st).masked = false) := by
  have hne := getStorageKey_ne_provider p
  constructor
  · intro hs hv
    have hget : getItem (getStorageKey p)
        (setItem STORAGE_PROVIDER p st.storage) = some v := by
      simp [getItem, setItem, hne, hs]
    simp [syncProvider, hget, hv, applyMaskedKey, updateCache]
  · intro hs hresp
    have hget : getItem (getStorageKey p)
        (setItem STORAGE_PROVIDER p st.storage) = none := by
      simp [getItem, setItem, hne, hs]
    rcases hresp with h | h <;> subst h <;>
      simp [syncProvider, hget, hydrateFromEnv]

/-- Witness for C7: in `ksStored`, switching to `"openai"` (stored key
`"sk-123"`) masks; switching the fresh `ksInit "gemini"` to `"grok"` with no
environment value leaves an empty unmasked display. -/
theorem syncProvider_display_resolution_witness :
    ((syncProvider "openai" none ksStored).apiKeyVisible =
        maskKey "sk-123" ∧
      (syncProvider "openai" none ksStored).masked = true ∧
      (syncProvider "openai" none ksStored).keyCache "openai" =
        some "sk-123") ∧
    ((syncProvider "grok" none (ksInit "gemini")).apiKeyVisible = "" ∧
      (syncProvider "grok" none (ksInit "gemini")).masked = false) :=
  ⟨(syncProvider_display_resolution "openai" "sk-123" none ksStored).1
      (by simp [ksStored, ksInit, setItem]) (by decide),
    (syncProvider_display_resolution "grok" "" none (ksInit "gemini")).2
      rfl (Or.inl rfl)⟩

/-- Claim C8: `hydrateFromEnv p` with a successful non-empty response `v`
populates the in-memory cache and persistent cache for `p` and sets the
masked display, while scheduling no remote write (pending timer and write
log unchanged); a failed/absent response (`none`) or an empty value leaves
the whole state unchanged. -/
theorem hydrateFromEnv_state_change (p : String) (st : KS) :
    (∀ v : String, v ≠ "" →
      (hydrateFromEnv p (some v) st).keyCache p = some v ∧
      (hydrateFromEnv p (some v) st).storage (getStorageKey p) = some v ∧
      (hydrateFromEnv p (some v) st).apiKeyVisible = maskKey v ∧
      (hydrateFromEnv p (some v) st).masked = true ∧
      (hydrateFromEnv p (some v) st).pending = st.pending ∧
      (hydrateFromEnv p (some v) st).writes = st.writes) ∧
    hydrateFromEnv p none st = st ∧
    hydrateFromEnv p (some "") st = st := by
  refine ⟨?_, rfl, ?_⟩
  · intro v hv
    simp [hydrateFromEnv, hv, applyMaskedKey, updateCache, setItem]
  · simp [hydrateFromEnv]

/-- Witness for C8 at provider `"grok"`, response value `"xai-1"`. -/
theorem hydrateFromEnv_state_change_witness :
    (hydrateFromEnv "grok" (some "xai-1") (ksInit "grok")).keyCache "grok" =
        some "xai-1" ∧
    (hydrateFromEnv "grok" (some "xai-1") (ksInit "grok")).storage
        (getStorageKey "grok") = some "xai-1" ∧
    (hydrateFromEnv "grok" (some "xai-1") (ksInit "grok")).apiKeyVisible =
        maskKey "xai-1" ∧
    (hydrateFromEnv "grok" (some "xai-1") (ksInit "grok")).masked = true ∧
    (hydrateFromEnv "grok" (some "xai-1") (ksInit "grok")).pending =
        (ksInit "grok").pending ∧
    (hydrateFromEnv "grok" (some "xai-1") (ksInit "grok")).writes =
        (ksInit "grok").writes :=
  (hydrateFromEnv_state_change "grok" (ksInit "grok")).1 "xai-1" (by decide)

/-! ## Helper lemmas about the ImageStash loop -/

theorem addFilesGo_length (rand : Nat → String) (files : List ImageFile) :
    ∀ (items : List ImageItem) (idx : Nat), items.length ≤ 6 →
      (addFilesGo rand files items idx).1.length =
        min 6 (items.length + (files.filter isImage).length) := by
  induction files with
  | nil =>
    intro items idx h
    simp [addFilesGo]
    omega
  | cons f rest ih =>
    intro items idx h
    by_cases hf : isImage f = false
    · simp only [addFilesGo, if_pos hf]
      rw [ih items idx h]
      simp [List.filter_cons, hf]
    · have hf' : isImage f = true := by
        revert hf; cases isImage f <;> simp
      by_cases hlen : 6 ≤ items.length
      · simp only [addFilesGo, if_neg hf, if_pos hlen]
        rw [ih items idx h]
        simp [List.filter_cons, hf']
        omega
      · simp only [addFilesGo, if_neg hf, if_neg hlen]
        rw [ih (items ++ [(⟨rand idx, f, idx⟩ : ImageItem)]) (idx + 1)
          (by simp; omega)]
        simp [List.filter_cons, hf']
        omega

theorem addFilesGo_map (rand : Nat → String) (files : List ImageFile) :
    ∀ (items : List ImageItem) (idx : Nat), items.length ≤ 6 →
      (addFilesGo rand files items idx).1.map (fun it => it.file) =
        items.map (fun it => it.file) ++
          (files.filter isImage).take (6 - items.length) := by
  induction files with
  | nil =>
    intro items idx h
    simp [addFilesGo]
  | cons f rest ih =>
    intro items idx h
    by_cases hf : isImage f = false
    · simp only [addFilesGo, if_pos hf]
      rw [ih items idx h]
      simp [List.filter_cons, hf]
    · have hf' : isImage f = true := by
        revert hf; cases isImage f <;> simp
      by_cases hlen : 6 ≤ items.length
      · simp only [addFilesGo, if_neg hf, if_pos hlen]
        rw [ih items idx h]
        have h0 : 6 - items.length = 0 := by omega
        simp [List.filter_cons, hf', h0]
      · simp only [addFilesGo, if_neg hf, if_neg hlen]
        rw [ih (items ++ [(⟨rand idx, f, idx⟩ : ImageItem)]) (idx + 1)
          (by simp; omega)]
        have hsplit : 6 - items.length = (6 - (items.length + 1)) + 1 := by
          omega
        simp [List.filter_cons, hf', hsplit, List.take_succ_cons]

theorem addFilesGo_idInv (rand : Nat → String) (files : List ImageFile) :
    ∀ (items : List ImageItem) (idx : Nat),
      (∀ it ∈ items, it.id = rand it.url ∧ it.url < idx) →
      items.Pairwise (fun a b => a.url ≠ b.url) →
      (∀ it ∈ (addFilesGo rand files items idx).1,
          it.id = rand it.url ∧ it.url < (addFilesGo rand files items idx).2) ∧
      (addFilesGo rand files items idx).1.Pairwise
        (fun a b => a.url ≠ b.url) ∧
      idx ≤ (addFilesGo rand files items idx).2 := by
  induction files with
  | nil =>
    intro items idx h1 h2
    simpa [addFilesGo] using ⟨h1, h2⟩
  | cons f rest ih =>
    intro items idx h1 h2
    by_cases hf : isImage f = false
    · simp only [addFilesGo, if_pos hf]
      exact ih items idx h1 h2
    · by_cases hlen : 6 ≤ items.length
      · simp only [addFilesGo, if_neg hf, if_pos hlen]
        exact ih items idx h1 h2
      · simp only [addFilesGo, if_neg hf, if_neg hlen]
        have h1' : ∀ it ∈ items ++ [(⟨rand idx, f, idx⟩ : ImageItem)],
            it.id = rand it.url ∧ it.url < idx + 1 := by
          intro it hit
          rcases List.mem_append.mp hit with hmem | hmem
          · obtain ⟨ha, hb⟩ := h1 it hmem
            exact ⟨ha, by omega⟩
          · simp at hmem
            subst hmem
            exact ⟨rfl, Nat.lt_succ_self idx⟩
        have h2' : (items ++ [(⟨rand idx, f, idx⟩ : ImageItem)]).Pairwise
            (fun a b => a.url ≠ b.url) := by
          rw [List.pairwise_append]
          refine ⟨h2, by simp, ?_⟩
          intro a ha b hb
          simp at hb
          subst hb
          have := (h1 a ha).2
          show a.url ≠ idx
          omega
        have hres := ih (items ++ [⟨rand idx, f, idx⟩]) (idx + 1) h1' h2'
        refine ⟨hres.1, hres.2.1, ?_⟩
        have := hres.2.2
        omega

theorem addFilesGo_mem (rand : Nat → String) (files : List ImageFile) :
    ∀ (items : List ImageItem) (idx : Nat) (it : ImageItem),
      it ∈ (addFilesGo rand files items idx).1 →
      it ∈ items ∨ (it.id = rand it.url ∧ idx ≤ it.url) := by
  induction files with
  | nil =>
    intro items idx it h
    simp only [addFilesGo] at h
    exact Or.inl h
  | cons f rest ih =>
    intro items idx it h
    by_cases hf : isImage f = false
    · simp only [addFilesGo, if_pos hf] at h
      exact ih items idx it h
    · by_cases hlen : 6 ≤ items.length
      · simp only [addFilesGo, if_neg hf, if_pos hlen] at h
        exact ih items idx it h
      · simp only [addFilesGo, if_neg hf, if_neg hlen] at h
        rcases ih _ _ it h with h' | h'
        · rcases List.mem_append.mp h' with h'' | h''
          · exact Or.inl h''
          · simp at h''
            subst h''
            exact Or.inr ⟨rfl, le_refl idx⟩
        · exact Or.inr ⟨h'.1, by omega⟩

theorem reachable_length_le (rand : Nat → String) {st : StashState}
    (h : Reachable rand st) : st.imageItems.length ≤ 6 := by
  induction h with
  | init => simp [initStash]
  | @add files st hst ih =>
    have := addFilesGo_length rand files st.imageItems st.rngIdx ih
    simp only [addFiles]
    rw [this]
    omega
  | @remove id st hst ih =>
    simp only [removeFileById]
    exact le_trans (List.length_filter_le _ _) ih

theorem reachable_idInv (rand : Nat → String) {st : StashState}
    (h : Reachable rand st) :
    (∀ it ∈ st.imageItems, it.id = rand it.url ∧ it.url < st.rngIdx) ∧
    st.imageItems.Pairwise (fun a b => a.url ≠ b.url) := by
  induction h with
  | init => exact ⟨by simp [initStash], by simp [initStash]⟩
  | @add files st hst ih =>
    have hres := addFilesGo_idInv rand files st.imageItems st.rngIdx ih.1 ih.2
    exact ⟨hres.1, hres.2.1⟩
  | @remove id st hst ih =>
    constructor
    · intro it hit
      simp only [removeFileById] at hit ⊢
      exact ih.1 it (List.mem_of_mem_filter hit)
    · simp only [removeFileById]
      exact ih.2.sublist (List.filter_sublist _)

/-! ## Theorems: ImageStash -/

/-- Claim C1: from any reachable stash state, `addFiles` leaves the stash no
larger than 6, with size exactly `min 6 (priorSize + countOfValidImages)`
(valid: declared media type begins with `"image/"`), dropping invalid
candidates and appending the accepted ones in candidate order. -/
theorem addFiles_size_order (rand : Nat → String) (files : List ImageFile)
    (st : StashState) (hr : Reachable rand st) :
    (addFiles rand files st).imageItems.length =
      min 6 (st.imageItems.length + (files.filter isImage).length) ∧
    (addFiles rand files st).imageItems.length ≤ 6 ∧
    (addFiles rand files st).imageItems.map (fun it => it.file) =
      st.imageItems.map (fun it => it.file) ++
        (files.filter isImage).take (6 - st.imageItems.length) := by
  have h6 := reachable_length_le rand hr
  have hlen := addFilesGo_length rand files st.imageItems st.rngIdx h6
  have hmap := addFilesGo_map rand files st.imageItems st.rngIdx h6
  refine ⟨?_, ?_, ?_⟩
  · simpa [addFiles] using hlen
  · simp only [addFiles]
    rw [hlen]
    omega
  · simpa [addFiles] using hmap

/-- Witness for C1: adding `[imgA, imgB, txtC]` to the empty stash accepts
exactly the two images, in order. -/
theorem addFiles_size_order_witness :
    (addFiles seqRand [imgA, imgB, txtC] initStash).imageItems.length =
      min 6 (initStash.imageItems.length +
        (([imgA, imgB, txtC]).filter isImage).length) ∧
    (addFiles seqRand [imgA, imgB, txtC] initStash).imageItems.length ≤ 6 ∧
    (addFiles seqRand [imgA, imgB, txtC] initStash).imageItems.map
        (fun it => it.file) =
      initStash.imageItems.map (fun it => it.file) ++
        (([imgA, imgB, txtC]).filter isImage).take
          (6 - initStash.imageItems.length) :=
  addFiles_size_order seqRand [imgA, imgB, txtC] initStash Reachable.init

/-- Claim C6: after every `addFiles` and every `removeFileById`, the bound
file-input's file list is exactly the in-order projection of the logical
item list — the rebuild leaves no stale entries. -/
theorem rebuild_input_projection (rand : Nat → String)
    (files : List ImageFile) (id : String) (st : StashState) :
    (addFiles rand files st).inputFiles =
      (addFiles rand files st).imageItems.map (fun it => it.file) ∧
    (removeFileById id st).inputFiles =
      (removeFileById id st).imageItems.map (fun it => it.file) := by
  constructor <;> simp [addFiles, removeFileById]

/-- Claim C9 fails as stated: the ids come from
`Math.random().toString(36).slice(2, 9)` with no collision check, so a run
of the oracle that repeats a token yields a reachable stash whose two items
share an id. -/
theorem stash_ids_can_collide :
    Reachable constRand (addFiles constRand [imgA, imgB] initStash) ∧
    ¬ idsDistinct (addFiles constRand [imgA, imgB] initStash) :=
  ⟨Reachable.add [imgA, imgB] Reachable.init, by decide⟩

/-- Claim C9 (amended): provided the random id source yields pairwise
distinct values over the session run, every reachable stash state has
pairwise distinct item ids, and an id generated earlier in the run (hence
any id removed from the stash) is never assigned to a later-inserted item. -/
theorem stash_ids_fresh (rand : Nat → String)
    (hinj : Function.Injective rand) (st : StashState)
    (hr : Reachable rand st) :
    idsDistinct st ∧
    ∀ (files : List ImageFile) (it : ImageItem),
      it ∈ (addFiles rand files st).imageItems → it ∉ st.imageItems →
      ∀ j, j < st.rngIdx → it.id ≠ rand j := by
  obtain ⟨h1, h2⟩ := reachable_idInv rand hr
  constructor
  · unfold idsDistinct
    refine List.Pairwise.imp_of_mem ?_ h2
    intro a b ha hb hne
    rw [(h1 a ha).1, (h1 b hb).1]
    intro hcontr
    exact hne (hinj hcontr)
  · intro files it hmem hnot j hj
    simp only [addFiles] at hmem
    rcases addFilesGo_mem rand files st.imageItems st.rngIdx it hmem with
      h' | h'
    · exact absurd h' hnot
    · rw [h'.1]
      intro hcontr
      have := hinj hcontr
      omega

/-- Witness for C9 (amended) with the injective oracle `seqRand`, after one
add of two images. -/
theorem stash_ids_fresh_witness :
    idsDistinct (addFiles seqRand [imgA, imgB] initStash) := by
  have hinj : Function.Injective seqRand := by
    intro a b h
    have := congrArg String.length h
    simpa [seqRand] using this
  exact (stash_ids_fresh seqRand hinj (addFiles seqRand [imgA, imgB] initStash)
    (Reachable.add [imgA, imgB] Reachable.init)).1

end PromptWizard
